import Mathlib

/-!
Shallow embedding of the WeaveScope dashboard (src/app.py), restricted to the
deterministic computational parts the specification describes: seed
derivation, the synthetic match-and-risk generator of the Analyze handler,
the risk-level bucketing, the submission-metadata construction, and the text
content of the PDF report composer.

Python floats are modelled as exact rationals (ℚ); `random.Random(seed)` is
modelled by passing the sequence of pseudo-random draws explicitly, one
`Draw` per loop iteration, in the order the source consumes them.
-/

namespace WeaveScope

/-- The three sensitivity levels offered by the Search form
(`st.selectbox("Sensitivity level", ["Everyday", "Ceremonial", "Sacred"])`). -/
inductive Sensitivity
  | Everyday
  | Ceremonial
  | Sacred
deriving DecidableEq, Repr

/-- Model of `risk_level` (src/app.py lines 58-63): bucket a score with thresholds
70 and 35, checked in that order. -/
def risk_level (score : ℚ) : String :=
  if 70 ≤ score then "high"
  else if 35 ≤ score then "med"
  else "low"

/-- Unsigned little-endian integer value of a byte list, as computed by
Python `int.from_bytes(b, "little", signed=False)`. -/
def leBytesVal : List ℕ → ℕ
  | [] => 0
  | b :: bs => b + 256 * leBytesVal bs

/-- Model of `stable_seed_from_bytes` (src/app.py lines 42-45).  The empty-input
branch calls `random.randint(0, 10**9)` on the global generator; that
arbitrary value is modelled by the explicit `fallback` argument. -/
def stable_seed_from_bytes (b : List ℕ) (fallback : ℕ) : ℕ :=
  if b = [] then fallback else leBytesVal (b.take 8)

/-- Round a rational to the nearest integer, ties to even: the rounding
Python `round` applies.  (On the binary floats of the source, decimal ties
essentially never arise; on the exact rational model the tie branch is the
faithful choice.) -/
def roundHalfEven (q : ℚ) : ℤ :=
  if q - ⌊q⌋ < 1/2 then ⌊q⌋
  else if 1/2 < q - ⌊q⌋ then ⌊q⌋ + 1
  else if ⌊q⌋ % 2 = 0 then ⌊q⌋ else ⌊q⌋ + 1

/-- Python `round(x, 1)` on the exact rational value. -/
def round1 (q : ℚ) : ℚ := (roundHalfEven (10 * q) : ℚ) / 10

/-- Python `int(x)`: truncation toward zero. -/
def pyInt (q : ℚ) : ℤ := if 0 ≤ q then ⌊q⌋ else ⌈q⌉

/-- Python `min` on two numbers. -/
def pyMin (a b : ℚ) : ℚ := if a ≤ b then a else b

/-- Python `max` on two numbers. -/
def pyMax (a b : ℚ) : ℚ := if b ≤ a then a else b

/-- Model of `score = max(0, min(100, score))` (src/app.py line 656). -/
def clamp (q : ℚ) : ℚ := pyMax 0 (pyMin 100 q)

/-- The fixed title pool (src/app.py lines 632-636). -/
def titles : List String :=
  ["Woven Jacquard Jacket", "Printed Scarf (Limited Run)", "Decor Textile Cushion",
   "Embroidery Panel Bag", "Patterned Wrap Dress", "Home Textile Wall Hanging",
   "Cotton Kimono Robe", "Handmade Tote with Motif"]

/-- The fixed brand pool (src/app.py line 637). -/
def brands : List String :=
  ["Maison Lume", "Studio Loom", "North & Co", "Atelier Vale", "Kora Works", "Urban Nomad"]

/-- The fixed `sources` list (src/app.py line 638).  Note that the Analyze
handler always draws from this fixed list; the user-selected `marketplaces`
multiselect is never consulted by the generation loop. -/
def sources : List String := ["CatalogX", "DemoMarket", "CraftHub"]

/-- The fixed flagged-wording pool inside `pick_flags` (src/app.py line 641). -/
def flags_pool : List String :=
  ["tribal", "exotic", "ethnic", "primitive", "oriental-inspired"]

/-- The pseudo-random draws one iteration of the generation loop consumes,
in source order:
`sim = rng.uniform(62, 92)`; `rng.random() < 0.6` (noise bonus);
`rng.choice([...styles...])` inside `textile_swatch`;
`rng.random() < 0.35` (attribution); `rng.random() < 0.45` and
`rng.choice(flags_pool)` inside `pick_flags`; `rng.choice(sources)` for the
URL; `rng.choice(titles)`; `rng.choice(brands)`; `rng.choice(sources)` for
the record's source.  Choices are modelled by their drawn index. -/
structure Draw where
  sim : ℚ
  noiseHi : Bool
  styleIdx : ℕ
  attributionHit : Bool
  flagHit : Bool
  flagIdx : ℕ
  urlSrcIdx : ℕ
  titleIdx : ℕ
  brandIdx : ℕ
  srcIdx : ℕ
deriving DecidableEq, Repr

/-- The ranges `random.Random` guarantees for the draws consumed by one
iteration: `uniform(62, 92)` lies in [62, 92] and each `choice` index is
below the length of the corresponding pool. -/
def Draw.Valid (d : Draw) : Prop :=
  62 ≤ d.sim ∧ d.sim ≤ 92 ∧ d.styleIdx < 5 ∧ d.flagIdx < 5 ∧
    d.urlSrcIdx < 3 ∧ d.titleIdx < 8 ∧ d.brandIdx < 6 ∧ d.srcIdx < 3

instance (d : Draw) : Decidable d.Valid := by
  unfold Draw.Valid
  infer_instance

/-- Model of `pick_flags` (src/app.py lines 640-645): zero or one entry from the pool. -/
def pick_flags (d : Draw) : List String :=
  if d.flagHit then [flags_pool.getD d.flagIdx ""] else []

/-- The sensitivity bonus of the score expression (src/app.py line 653):
`25 if sensitivity == "Sacred" else 15 if sensitivity == "Ceremonial" else 6`. -/
def sensitivityBonus : Sensitivity → ℚ
  | .Sacred => 25
  | .Ceremonial => 15
  | .Everyday => 6

/-- The noise bonus of the score expression (src/app.py line 654):
`12 if rng.random() < 0.6 else 4`. -/
def noiseBonus (hi : Bool) : ℚ := if hi then 12 else 4

/-- The clamped score of one iteration (src/app.py lines 651-656), before
the one-decimal rounding applied when the record is stored. -/
def scoreRaw (sens : Sensitivity) (d : Draw) : ℚ :=
  clamp (0.48 * d.sim + sensitivityBonus sens + noiseBonus d.noiseHi)

/-- The record dictionary appended to `rows` (src/app.py lines 664-676),
minus the thumbnail image (`"img"`), which is cosmetic raster data. -/
structure MatchRecord where
  rank : ℕ
  title : String
  brand : String
  source : String
  similarity : ℤ
  score : ℚ
  level : String
  attribution : String
  flags : List String
  url : String
deriving DecidableEq, Repr

/-- One iteration of the generation loop (src/app.py lines 649-676):
`lvl = risk_level(score)` is computed on the clamped, unrounded score,
while the stored `"score"` entry is `round(score, 1)`. -/
def genRecord (seed : ℕ) (sens : Sensitivity) (i : ℕ) (d : Draw) : MatchRecord :=
  { rank := i + 1
    title := titles.getD d.titleIdx ""
    brand := brands.getD d.brandIdx ""
    source := sources.getD d.srcIdx ""
    similarity := pyInt d.sim
    score := round1 (scoreRaw sens d)
    level := risk_level (scoreRaw sens d)
    attribution := if d.attributionHit then "present" else "absent"
    flags := pick_flags d
    url := "https://" ++ (sources.getD d.urlSrcIdx "").toLower ++
      ".example.com/listing/" ++ toString (seed % 9999) ++ "-" ++ toString i }

/-- Model of the `for i in range(top_k)` loop (src/app.py lines 649-676), carrying
the loop index; one `Draw` per iteration. -/
def genRowsFrom (seed : ℕ) (sens : Sensitivity) : ℕ → List Draw → List MatchRecord
  | _, [] => []
  | i, d :: ds => genRecord seed sens i d :: genRowsFrom seed sens (i + 1) ds

/-- The full `rows` list before sorting. -/
def genRows (seed : ℕ) (sens : Sensitivity) (draws : List Draw) : List MatchRecord :=
  genRowsFrom seed sens 0 draws

/-- The comparison realised by
`sorted(rows, key=lambda r: (r["score"], r["similarity"]), reverse=True)`:
`keyLe a b` holds when `a` may come before `b`, i.e. when `b`'s composite
key is lexicographically at most `a`'s. -/
def keyLe (a b : MatchRecord) : Bool :=
  decide (b.score < a.score ∨ (b.score = a.score ∧ b.similarity ≤ a.similarity))

/-- The Analyze handler's match generation (src/app.py lines 648-678):
generate `rows`, then sort them stably, descending by the composite key
`(score, similarity)`.  Python's `sorted` is a stable sort, modelled by
`List.mergeSort`.  The `marketplaces` selection is accepted at the boundary
but, exactly as in the source, never consulted by the loop. -/
def generateMatches (seed : ℕ) (sens : Sensitivity) (marketplaces : List String)
    (draws : List Draw) : List MatchRecord :=
  List.mergeSort (genRows seed sens draws) keyLe

/-- Model of the `meta` meaning entry construction (src/app.py line 609):
`(meaning[:180] + "…") if len(meaning) > 180 else (meaning or "—")`. -/
def meaning_field (meaning : String) : String :=
  if 180 < meaning.length then meaning.take 180 ++ "…"
  else if meaning = "" then "—" else meaning

/-! Helper lemmas about the rounding, clamping and scoring functions. -/

lemma sub_half_le_roundHalfEven (q : ℚ) : q - 1/2 ≤ (roundHalfEven q : ℚ) := by
  unfold roundHalfEven
  have hf := Int.floor_le q
  have hc := Int.lt_floor_add_one q
  split_ifs with h1 h2 h3 <;> push_cast <;> linarith

lemma roundHalfEven_le_add_half (q : ℚ) : (roundHalfEven q : ℚ) ≤ q + 1/2 := by
  unfold roundHalfEven
  have hf := Int.floor_le q
  have hc := Int.lt_floor_add_one q
  split_ifs with h1 h2 h3 <;> push_cast <;> linarith

lemma le_round1 (y : ℚ) (n : ℤ) (h : (n : ℚ) - 1/2 < 10 * y) : (n : ℚ) / 10 ≤ round1 y := by
  unfold round1
  have h1 := sub_half_le_roundHalfEven (10 * y)
  have h2 : (n : ℚ) - 1 < (roundHalfEven (10 * y) : ℚ) := by linarith
  have h3 : n - 1 < roundHalfEven (10 * y) := by exact_mod_cast h2
  have h4 : (n : ℚ) ≤ (roundHalfEven (10 * y) : ℚ) := by
    exact_mod_cast (by omega : n ≤ roundHalfEven (10 * y))
  linarith

lemma round1_le (y : ℚ) (n : ℤ) (h : 10 * y < (n : ℚ) + 1/2) : round1 y ≤ (n : ℚ) / 10 := by
  unfold round1
  have h1 := roundHalfEven_le_add_half (10 * y)
  have h2 : (roundHalfEven (10 * y) : ℚ) < (n : ℚ) + 1 := by linarith
  have h3 : roundHalfEven (10 * y) < n + 1 := by exact_mod_cast h2
  have h4 : (roundHalfEven (10 * y) : ℚ) ≤ (n : ℚ) := by
    exact_mod_cast (by omega : roundHalfEven (10 * y) ≤ n)
  linarith

lemma roundHalfEven_add_190 (q : ℚ) : roundHalfEven (q + 190) = roundHalfEven q + 190 := by
  unfold roundHalfEven
  have hf : ⌊q + (190 : ℚ)⌋ = ⌊q⌋ + 190 := by
    rw [show (190 : ℚ) = ((190 : ℤ) : ℚ) by norm_num, Int.floor_add_int]
  rw [hf]
  have he : q + 190 - ((⌊q⌋ + 190 : ℤ) : ℚ) = q - ⌊q⌋ := by push_cast; ring
  rw [he]
  have hm : (⌊q⌋ + 190) % 2 = ⌊q⌋ % 2 := by omega
  rw [hm]
  split_ifs <;> omega

lemma round1_add_19 (q : ℚ) : round1 (q + 19) = round1 q + 19 := by
  unfold round1
  rw [show 10 * (q + 19) = 10 * q + 190 by ring, roundHalfEven_add_190]
  push_cast
  ring

lemma clamp_eq_self {q : ℚ} (h0 : 0 ≤ q) (h1 : q ≤ 100) : clamp q = q := by
  unfold clamp pyMin pyMax
  split_ifs <;> linarith

lemma clamp_nonneg (q : ℚ) : 0 ≤ clamp q := by
  unfold clamp pyMin pyMax
  split_ifs <;> linarith

lemma clamp_le_100 (q : ℚ) : clamp q ≤ 100 := by
  unfold clamp pyMin pyMax
  split_ifs <;> linarith

lemma sensitivityBonus_mem (sens : Sensitivity) :
    6 ≤ sensitivityBonus sens ∧ sensitivityBonus sens ≤ 25 := by
  cases sens <;> norm_num [sensitivityBonus]

lemma noiseBonus_mem (b : Bool) : 4 ≤ noiseBonus b ∧ noiseBonus b ≤ 12 := by
  cases b <;> norm_num [noiseBonus]

lemma scoreRaw_eq (sens : Sensitivity) (d : Draw) (h62 : 62 ≤ d.sim) (h92 : d.sim ≤ 92) :
    scoreRaw sens d = 0.48 * d.sim + sensitivityBonus sens + noiseBonus d.noiseHi := by
  have hb := sensitivityBonus_mem sens
  have hn := noiseBonus_mem d.noiseHi
  unfold scoreRaw
  exact clamp_eq_self (by linarith) (by linarith)

lemma scoreRaw_bounds (sens : Sensitivity) (d : Draw) (h62 : 62 ≤ d.sim) (h92 : d.sim ≤ 92) :
    39.76 ≤ scoreRaw sens d ∧ scoreRaw sens d ≤ 81.16 := by
  have hb := sensitivityBonus_mem sens
  have hn := noiseBonus_mem d.noiseHi
  rw [scoreRaw_eq sens d h62 h92]
  constructor <;> linarith

lemma mem_genRowsFrom {seed : ℕ} {sens : Sensitivity} :
    ∀ {i : ℕ} {ds : List Draw} {r : MatchRecord}, r ∈ genRowsFrom seed sens i ds →
      ∃ j d, d ∈ ds ∧ r = genRecord seed sens j d := by
  intro i ds
  induction ds generalizing i with
  | nil => intro r h; simp [genRowsFrom] at h
  | cons d ds ih =>
    intro r h
    simp only [genRowsFrom, List.mem_cons] at h
    rcases h with h | h
    · exact ⟨i, d, List.mem_cons_self d ds, h⟩
    · obtain ⟨j, d2, hm, he⟩ := ih h
      exact ⟨j, d2, List.mem_cons_of_mem d hm, he⟩

lemma keyLe_trans : ∀ a b c : MatchRecord, keyLe a b → keyLe b c → keyLe a c := by
  intro a b c hab hbc
  simp only [keyLe, decide_eq_true_eq] at hab hbc ⊢
  rcases hab with h1 | ⟨h1, h2⟩ <;> rcases hbc with h3 | ⟨h3, h4⟩
  · exact Or.inl (lt_trans h3 h1)
  · exact Or.inl (by rw [h3]; exact h1)
  · exact Or.inl (by rw [← h1]; exact h3)
  · exact Or.inr ⟨h3.trans h1, le_trans h4 h2⟩

lemma keyLe_total : ∀ a b : MatchRecord, keyLe a b || keyLe b a := by
  intro a b
  simp only [keyLe, Bool.or_eq_true, decide_eq_true_eq]
  rcases lt_trichotomy a.score b.score with h | h | h
  · exact Or.inr (Or.inl h)
  · rcases le_total b.similarity a.similarity with hs | hs
    · exact Or.inl (Or.inr ⟨h.symm, hs⟩)
    · exact Or.inr (Or.inr ⟨h, hs⟩)
  · exact Or.inl (Or.inl h)

lemma leBytesVal_append_zeros (xs : List ℕ) (k : ℕ) :
    leBytesVal (xs ++ List.replicate k 0) = leBytesVal xs := by
  induction xs with
  | nil =>
    simp only [List.nil_append]
    induction k with
    | zero => rfl
    | succ n ih => simp [List.replicate_succ, leBytesVal, ih]
  | cons b bs ih => simp [leBytesVal, ih, List.cons_append]

/-! Claim theorems. -/

/-- C1 (amended): for every generated match record, under every draw,
`riskScore` equals the one-decimal rounding (Python `round(score, 1)`) of
the clamp to [0,100] of `0.48 * similarity + sensitivityBonus + noiseBonus`,
where the weight 0.48 lies in the policy band [0.48, 0.52], the sensitivity
bonus table is exactly 6 / 15 / 25 (within the bands 6-7, 15-18, 25-30), and
the noise bonus is 12 (within 10-12) with probability 0.6 and otherwise 4;
consequently `0 ≤ riskScore ≤ 100` holds for every record under every draw. -/
theorem c1_riskScore_rounded_clamp (seed : ℕ) (sens : Sensitivity) (i : ℕ) (d : Draw) :
    (genRecord seed sens i d).score
      = round1 (clamp (0.48 * d.sim + sensitivityBonus sens + noiseBonus d.noiseHi)) ∧
    0 ≤ (genRecord seed sens i d).score ∧ (genRecord seed sens i d).score ≤ 100 ∧
    ((0.48 : ℚ) ≤ 0.48 ∧ (0.48 : ℚ) ≤ 0.52) ∧
    (6 ≤ sensitivityBonus .Everyday ∧ sensitivityBonus .Everyday ≤ 7) ∧
    (15 ≤ sensitivityBonus .Ceremonial ∧ sensitivityBonus .Ceremonial ≤ 18) ∧
    (25 ≤ sensitivityBonus .Sacred ∧ sensitivityBonus .Sacred ≤ 30) ∧
    (10 ≤ noiseBonus true ∧ noiseBonus true ≤ 12) ∧ noiseBonus false = 4 := by
  refine ⟨rfl, ?_, ?_, by norm_num, by norm_num [sensitivityBonus],
    by norm_num [sensitivityBonus], by norm_num [sensitivityBonus],
    by norm_num [noiseBonus], by norm_num [noiseBonus]⟩
  · show 0 ≤ round1 (scoreRaw sens d)
    have hc := clamp_nonneg (0.48 * d.sim + sensitivityBonus sens + noiseBonus d.noiseHi)
    have h := le_round1 (scoreRaw sens d) 0 (by unfold scoreRaw; push_cast; linarith)
    norm_num at h
    exact h
  · show round1 (scoreRaw sens d) ≤ 100
    have hc := clamp_le_100 (0.48 * d.sim + sensitivityBonus sens + noiseBonus d.noiseHi)
    have h := round1_le (scoreRaw sens d) 1000 (by unfold scoreRaw; push_cast; linarith)
    norm_num at h
    exact h

/-- C1 counterexample: the claim as stated (the record's `riskScore` field
EQUALS the clamp of `w * similarity + bonuses` for some fixed weight and
bonus table in the policy bands) is false: `riskScore` is rounded to one
decimal.  Two concrete Ceremonial high-noise draws with similarity 80 and
80.05 both store `riskScore = 65.4`, which no weight `w ≥ 0.48` can
reproduce exactly on both unrounded scores simultaneously. -/
theorem c1_counterexample :
    (genRecord 0 .Ceremonial 0 ⟨80, true, 0, true, false, 0, 0, 0, 0, 0⟩).score = 65.4 ∧
    (genRecord 0 .Ceremonial 0 ⟨80.05, true, 0, true, false, 0, 0, 0, 0, 0⟩).score = 65.4 ∧
    ¬ ∃ w cb hi : ℚ, 0.48 ≤ w ∧ w ≤ 0.52 ∧ 15 ≤ cb ∧ cb ≤ 18 ∧ 10 ≤ hi ∧ hi ≤ 12 ∧
        (genRecord 0 .Ceremonial 0 ⟨80, true, 0, true, false, 0, 0, 0, 0, 0⟩).score
          = clamp (w * 80 + cb + hi) ∧
        (genRecord 0 .Ceremonial 0 ⟨80.05, true, 0, true, false, 0, 0, 0, 0, 0⟩).score
          = clamp (w * 80.05 + cb + hi) := by
  have e1 : (genRecord 0 .Ceremonial 0 ⟨80, true, 0, true, false, 0, 0, 0, 0, 0⟩).score = 65.4 := by
    norm_num [genRecord, scoreRaw, clamp, pyMin, pyMax, sensitivityBonus, noiseBonus,
      round1, roundHalfEven]
  have e2 : (genRecord 0 .Ceremonial 0 ⟨80.05, true, 0, true, false, 0, 0, 0, 0, 0⟩).score = 65.4 := by
    norm_num [genRecord, scoreRaw, clamp, pyMin, pyMax, sensitivityBonus, noiseBonus,
      round1, roundHalfEven]
  refine ⟨e1, e2, ?_⟩
  rintro ⟨w, cb, hi, hw1, hw2, hcb1, hcb2, hhi1, hhi2, q1, q2⟩
  rw [e1, clamp_eq_self (by linarith) (by linarith)] at q1
  rw [e2, clamp_eq_self (by linarith) (by linarith)] at q2
  linarith

/-- C3 (amended): `risk_level` is a pure deterministic function of its
argument, with `high` iff score ≥ 70, `med` iff 35 ≤ score < 70 and `low`
iff score < 35; every generated record's `riskLevel` equals `risk_level`
applied to the record's clamped UNROUNDED score.  (Applied to the stored,
one-decimal-rounded `riskScore` it can differ: see the counterexample.) -/
theorem c3_riskLevel_pure (s : ℚ) (seed : ℕ) (sens : Sensitivity) (i : ℕ) (d : Draw) :
    (risk_level s = "high" ↔ 70 ≤ s) ∧
    (risk_level s = "med" ↔ 35 ≤ s ∧ s < 70) ∧
    (risk_level s = "low" ↔ s < 35) ∧
    (genRecord seed sens i d).level = risk_level (scoreRaw sens d) := by
  refine ⟨?_, ?_, ?_, rfl⟩ <;> unfold risk_level <;> split_ifs with h1 h2 <;>
    simp_all <;> linarith

/-- C3 counterexample: for a Ceremonial high-noise draw with similarity
89.55 the unrounded score is 69.984, so the record's `riskLevel` is `med`,
but the stored `riskScore` rounds to 70.0, on which `risk_level` yields
`high`: the record's `riskLevel` does NOT equal the pure function applied
to the record's own `riskScore` field. -/
theorem c3_counterexample :
    (genRecord 0 .Ceremonial 0 ⟨89.55, true, 0, true, false, 0, 0, 0, 0, 0⟩).level = "med" ∧
    risk_level ((genRecord 0 .Ceremonial 0 ⟨89.55, true, 0, true, false, 0, 0, 0, 0, 0⟩).score)
      = "high" ∧
    (genRecord 0 .Ceremonial 0 ⟨89.55, true, 0, true, false, 0, 0, 0, 0, 0⟩).level
      ≠ risk_level ((genRecord 0 .Ceremonial 0 ⟨89.55, true, 0, true, false, 0, 0, 0, 0, 0⟩).score) := by
  have h1 : (genRecord 0 .Ceremonial 0 ⟨89.55, true, 0, true, false, 0, 0, 0, 0, 0⟩).level = "med" := by
    norm_num [genRecord, scoreRaw, clamp, pyMin, pyMax, sensitivityBonus, noiseBonus, risk_level]
  have h2 : risk_level ((genRecord 0 .Ceremonial 0 ⟨89.55, true, 0, true, false, 0, 0, 0, 0, 0⟩).score)
      = "high" := by
    norm_num [genRecord, scoreRaw, clamp, pyMin, pyMax, sensitivityBonus, noiseBonus,
      round1, roundHalfEven, risk_level]
  exact ⟨h1, h2, by rw [h1, h2]; decide⟩

/-- C5: the generator is deterministic.  The source reseeds
`rng = random.Random(seed)` immediately before the loop, and no other source
of nondeterminism enters the loop, so the draw stream is a function of the
seed alone; with the stream passed explicitly, two calls with identical
seed, count, sensitivity and marketplaces consume identical streams and
return identical ordered sequences of records. -/
theorem c5_generator_deterministic (seed : ℕ) (sens : Sensitivity) (mkts : List String)
    (draws1 draws2 : List Draw) (h : draws1 = draws2) :
    generateMatches seed sens mkts draws1 = generateMatches seed sens mkts draws2 := by
  rw [h]

/-- Witness for C5: seed 1000, Sacred, CatalogX, a concrete one-element stream. -/
theorem c5_witness :
    ([(⟨70, true, 0, true, false, 0, 0, 0, 0, 0⟩ : Draw)]
        = [(⟨70, true, 0, true, false, 0, 0, 0, 0, 0⟩ : Draw)]) ∧
    generateMatches 1000 .Sacred ["CatalogX"] [⟨70, true, 0, true, false, 0, 0, 0, 0, 0⟩]
      = generateMatches 1000 .Sacred ["CatalogX"] [⟨70, true, 0, true, false, 0, 0, 0, 0, 0⟩] :=
  ⟨rfl, c5_generator_deterministic 1000 .Sacred ["CatalogX"] _ _ rfl⟩

/-- C6: for every non-empty byte sequence, `stable_seed_from_bytes` returns
the unsigned little-endian integer formed from the first 8 bytes,
zero-padded in the high bytes when fewer than 8 are available; only for
empty input is the returned seed the arbitrary fallback.  The function is
total by construction. -/
theorem c6_deriveSeed_le_first8 (b : List ℕ) (fb : ℕ) (h : b ≠ []) :
    stable_seed_from_bytes b fb
      = leBytesVal (b.take 8 ++ List.replicate (8 - (b.take 8).length) 0) ∧
    stable_seed_from_bytes [] fb = fb := by
  constructor
  · rw [stable_seed_from_bytes, if_neg h, leBytesVal_append_zeros]
  · rfl

/-- Witness for C6: the two-byte input `[1, 2]` yields `1 + 2*256 = 513`,
the little-endian value of `[1, 2, 0, 0, 0, 0, 0, 0]`. -/
theorem c6_witness :
    ([1, 2] : List ℕ) ≠ [] ∧
    (stable_seed_from_bytes [1, 2] 7
        = leBytesVal (([1, 2] : List ℕ).take 8
            ++ List.replicate (8 - (([1, 2] : List ℕ).take 8).length) 0) ∧
      stable_seed_from_bytes [] 7 = 7) :=
  ⟨by decide, c6_deriveSeed_le_first8 [1, 2] 7 (by decide)⟩

/-- C7: with the draw stream held fixed, swapping the sensitivity from
Everyday to Sacred raises every record's stored `riskScore` by exactly
25 - 6 = 19 (the clamp is transparent on the reachable range and one-decimal
rounding commutes with the integer shift), so the score never decreases at
all, in particular never by more than the noise-bonus spread 12 - 4 = 8;
and the Sacred bonus 25 strictly exceeds the Everyday bonus 6. -/
theorem c7_sensitivity_monotone (seed : ℕ) (i : ℕ) (d : Draw)
    (h62 : 62 ≤ d.sim) (h92 : d.sim ≤ 92) :
    (genRecord seed .Sacred i d).score = (genRecord seed .Everyday i d).score + 19 ∧
    (genRecord seed .Everyday i d).score - 8 ≤ (genRecord seed .Sacred i d).score ∧
    sensitivityBonus .Everyday < sensitivityBonus .Sacred := by
  have hS := scoreRaw_eq .Sacred d h62 h92
  have hE := scoreRaw_eq .Everyday d h62 h92
  have key : scoreRaw .Sacred d = scoreRaw .Everyday d + 19 := by
    rw [hS, hE]
    simp only [sensitivityBonus]
    ring
  have h1 : (genRecord seed .Sacred i d).score = (genRecord seed .Everyday i d).score + 19 := by
    show round1 (scoreRaw .Sacred d) = round1 (scoreRaw .Everyday d) + 19
    rw [key, round1_add_19]
  exact ⟨h1, by linarith, by norm_num [sensitivityBonus]⟩

/-- Witness for C7 at a concrete draw with similarity 70. -/
theorem c7_witness :
    (62 : ℚ) ≤ (⟨70, true, 0, true, false, 0, 0, 0, 0, 0⟩ : Draw).sim ∧
    (⟨70, true, 0, true, false, 0, 0, 0, 0, 0⟩ : Draw).sim ≤ 92 ∧
    ((genRecord 3 .Sacred 0 ⟨70, true, 0, true, false, 0, 0, 0, 0, 0⟩).score
        = (genRecord 3 .Everyday 0 ⟨70, true, 0, true, false, 0, 0, 0, 0, 0⟩).score + 19 ∧
      (genRecord 3 .Everyday 0 ⟨70, true, 0, true, false, 0, 0, 0, 0, 0⟩).score - 8
        ≤ (genRecord 3 .Sacred 0 ⟨70, true, 0, true, false, 0, 0, 0, 0, 0⟩).score ∧
      sensitivityBonus .Everyday < sensitivityBonus .Sacred) :=
  ⟨by show (62 : ℚ) ≤ 70; norm_num, by show (70 : ℚ) ≤ 92; norm_num,
    c7_sensitivity_monotone 3 0 _ (by show (62 : ℚ) ≤ 70; norm_num)
      (by show (70 : ℚ) ≤ 92; norm_num)⟩

/-- C8 (amended): the submission metadata's meaning field is truncated to
180 characters (not 220) with an ellipsis appended iff the submitted string
is longer than 180 characters; otherwise it is stored unchanged, except
that the empty string is replaced by the em-dash placeholder. -/
theorem c8_meaning_truncate (s : String) :
    (180 < s.length → meaning_field s = s.take 180 ++ "…") ∧
    (s.length ≤ 180 → s ≠ "" → meaning_field s = s) ∧
    meaning_field "" = "—" := by
  refine ⟨?_, ?_, by decide⟩
  · intro h
    rw [meaning_field, if_pos h]
  · intro h1 h2
    rw [meaning_field, if_neg (by omega), if_neg h2]

set_option maxRecDepth 8000 in
/-- C8 counterexample: a 200-character meaning string is no longer than the
claimed 220-character threshold, yet the code does not store it unchanged:
it truncates at 180 and appends the ellipsis. -/
theorem c8_counterexample :
    (String.mk (List.replicate 200 'a')).length = 200 ∧
    (200 : ℕ) ≤ 220 ∧
    meaning_field (String.mk (List.replicate 200 'a')) ≠ String.mk (List.replicate 200 'a') := by
  refine ⟨by decide, by norm_num, ?_⟩
  intro h
  have h2 : (meaning_field (String.mk (List.replicate 200 'a'))).length = 181 := by decide
  rw [h] at h2
  have h3 : (String.mk (List.replicate 200 'a')).length = 200 := by decide
  omega

set_option maxRecDepth 8000 in
/-- Witness for C8: a 181-character string is truncated, `"abc"` is stored
unchanged, and the empty string becomes the placeholder. -/
theorem c8_witness :
    meaning_field (String.mk (List.replicate 181 'b'))
        = (String.mk (List.replicate 181 'b')).take 180 ++ "…" ∧
    meaning_field "abc" = "abc" ∧
    meaning_field "" = "—" :=
  ⟨(c8_meaning_truncate (String.mk (List.replicate 181 'b'))).1 (by decide),
    (c8_meaning_truncate "abc").2.1 (by decide) (by decide),
    (c8_meaning_truncate "abc").2.2⟩

/-- C10 (amended): for every valid draw the clamped unrounded score lies in
[39.76, 81.16] — the maximum possible score is 0.48*92 + 25 + 12 = 81.16,
not 86.16 as claimed — so the stored one-decimal score lies in [39.8, 81.2],
the riskLevel is always `med` or `high` (never `low`), and the clamp bounds
0 and 100 are never reached. -/
theorem c10_score_range (seed : ℕ) (sens : Sensitivity) (i : ℕ) (d : Draw)
    (h62 : 62 ≤ d.sim) (h92 : d.sim ≤ 92) :
    39.76 ≤ scoreRaw sens d ∧ scoreRaw sens d ≤ 81.16 ∧
    0 < scoreRaw sens d ∧ scoreRaw sens d < 100 ∧
    39.8 ≤ (genRecord seed sens i d).score ∧ (genRecord seed sens i d).score ≤ 81.2 ∧
    ((genRecord seed sens i d).level = "med" ∨ (genRecord seed sens i d).level = "high") ∧
    (genRecord seed sens i d).level ≠ "low" := by
  obtain ⟨hlo, hhi⟩ := scoreRaw_bounds sens d h62 h92
  have hs1 : (39.8 : ℚ) ≤ (genRecord seed sens i d).score := by
    show (39.8 : ℚ) ≤ round1 (scoreRaw sens d)
    have h := le_round1 (scoreRaw sens d) 398 (by push_cast; linarith)
    norm_num at h
    linarith
  have hs2 : (genRecord seed sens i d).score ≤ 81.2 := by
    show round1 (scoreRaw sens d) ≤ 81.2
    have h := round1_le (scoreRaw sens d) 812 (by push_cast; linarith)
    norm_num at h
    linarith
  have hmh : (genRecord seed sens i d).level = "med" ∨ (genRecord seed sens i d).level = "high" := by
    show risk_level (scoreRaw sens d) = "med" ∨ risk_level (scoreRaw sens d) = "high"
    unfold risk_level
    split_ifs with h1 h2
    · right; rfl
    · left; rfl
    · exfalso; apply h2; linarith
  refine ⟨hlo, hhi, by linarith, by linarith, hs1, hs2, hmh, ?_⟩
  rcases hmh with h | h <;> rw [h] <;> decide

/-- C10 counterexample: at the extreme draw the claim designates as the
maximiser (similarity 92, Sacred, high noise) the clamped score is
0.48*92 + 25 + 12 = 81.16, not the 86.16 the claim asserts. -/
theorem c10_counterexample :
    scoreRaw .Sacred ⟨92, true, 0, true, false, 0, 0, 0, 0, 0⟩ = 81.16 ∧
    (0.48 : ℚ) * 92 + 25 + 12 = 81.16 ∧
    scoreRaw .Sacred ⟨92, true, 0, true, false, 0, 0, 0, 0, 0⟩ ≠ 86.16 := by
  refine ⟨?_, by norm_num, ?_⟩ <;>
    norm_num [scoreRaw, clamp, pyMin, pyMax, sensitivityBonus, noiseBonus]

/-- Witness for C10 at the minimal draw (similarity 62, Everyday, low noise). -/
theorem c10_witness :
    (62 : ℚ) ≤ (⟨62, false, 0, false, false, 0, 0, 0, 0, 0⟩ : Draw).sim ∧
    (⟨62, false, 0, false, false, 0, 0, 0, 0, 0⟩ : Draw).sim ≤ 92 ∧
    (39.76 ≤ scoreRaw .Everyday ⟨62, false, 0, false, false, 0, 0, 0, 0, 0⟩ ∧
      scoreRaw .Everyday ⟨62, false, 0, false, false, 0, 0, 0, 0, 0⟩ ≤ 81.16 ∧
      0 < scoreRaw .Everyday ⟨62, false, 0, false, false, 0, 0, 0, 0, 0⟩ ∧
      scoreRaw .Everyday ⟨62, false, 0, false, false, 0, 0, 0, 0, 0⟩ < 100 ∧
      39.8 ≤ (genRecord 0 .Everyday 0 ⟨62, false, 0, false, false, 0, 0, 0, 0, 0⟩).score ∧
      (genRecord 0 .Everyday 0 ⟨62, false, 0, false, false, 0, 0, 0, 0, 0⟩).score ≤ 81.2 ∧
      ((genRecord 0 .Everyday 0 ⟨62, false, 0, false, false, 0, 0, 0, 0, 0⟩).level = "med" ∨
        (genRecord 0 .Everyday 0 ⟨62, false, 0, false, false, 0, 0, 0, 0, 0⟩).level = "high") ∧
      (genRecord 0 .Everyday 0 ⟨62, false, 0, false, false, 0, 0, 0, 0, 0⟩).level ≠ "low") :=
  ⟨by show (62 : ℚ) ≤ 62; norm_num, by show (62 : ℚ) ≤ 92; norm_num,
    c10_score_range 0 .Everyday 0 _ (by show (62 : ℚ) ≤ 62; norm_num)
      (by show (62 : ℚ) ≤ 92; norm_num)⟩

/-- C2 (amended): the generation loop draws every record's `source` from
the FIXED catalog `["CatalogX", "DemoMarket", "CraftHub"]` regardless of
the supplied marketplaces selection: the output is independent of the
`marketplaces` argument, and each record's `source` is a member of the
fixed catalog (not necessarily of the supplied set). -/
theorem c2_source_ignores_marketplaces (seed : ℕ) (sens : Sensitivity)
    (mkts mkts2 : List String) (draws : List Draw) (hv : ∀ d ∈ draws, d.srcIdx < 3) :
    generateMatches seed sens mkts draws = generateMatches seed sens mkts2 draws ∧
    ∀ r ∈ generateMatches seed sens mkts draws, r.source ∈ sources := by
  refine ⟨rfl, ?_⟩
  intro r hr
  have hr2 : r ∈ genRows seed sens draws := List.mem_mergeSort.mp hr
  obtain ⟨j, d, hd, he⟩ := mem_genRowsFrom hr2
  have hidx := hv d hd
  subst he
  show sources.getD d.srcIdx "" ∈ sources
  have h3 : d.srcIdx = 0 ∨ d.srcIdx = 1 ∨ d.srcIdx = 2 := by omega
  rcases h3 with h | h | h <;> rw [h] <;> decide

/-- C2 counterexample: with the supplied marketplace set exactly
`["CatalogX"]` and a concrete draw whose source-choice index is 1, the
single returned record's `source` is `"DemoMarket"`, which is not a member
of the supplied set — the claim that every returned record's source lies in
the supplied non-empty set is false. -/
theorem c2_counterexample :
    ((generateMatches 5 .Everyday ["CatalogX"] [⟨70, true, 0, true, false, 0, 0, 0, 0, 1⟩]).map
        (fun r => r.source)) = ["DemoMarket"] ∧
    "DemoMarket" ∉ (["CatalogX"] : List String) := by
  constructor
  · simp [generateMatches, genRows, genRowsFrom, List.mergeSort_singleton, genRecord, sources]
  · decide

/-- Witness for C2 at a concrete draw stream. -/
theorem c2_witness :
    (∀ d ∈ [(⟨70, true, 0, true, false, 0, 0, 0, 0, 1⟩ : Draw)], d.srcIdx < 3) ∧
    (generateMatches 5 .Everyday ["CatalogX"] [⟨70, true, 0, true, false, 0, 0, 0, 0, 1⟩]
        = generateMatches 5 .Everyday [] [⟨70, true, 0, true, false, 0, 0, 0, 0, 1⟩] ∧
      ∀ r ∈ generateMatches 5 .Everyday ["CatalogX"] [⟨70, true, 0, true, false, 0, 0, 0, 0, 1⟩],
        r.source ∈ sources) :=
  ⟨by decide, c2_source_ignores_marketplaces 5 .Everyday ["CatalogX"] [] _ (by decide)⟩

/-- C4: the generator's output is sorted descending by the composite key
`(riskScore, similarity)`: adjacent pairs satisfy strictly-greater score or
equal score with no smaller similarity; and the sort is stable — records
that agree on both key components keep their generation order (the
subsequence of the output with any fixed key equals the corresponding
subsequence of the pre-sort rows). -/
theorem c4_ranking_sorted_stable (seed : ℕ) (sens : Sensitivity) (mkts : List String)
    (draws : List Draw) :
    List.Chain' (fun a b => b.score < a.score ∨ (a.score = b.score ∧ b.similarity ≤ a.similarity))
      (generateMatches seed sens mkts draws) ∧
    ∀ (s : ℚ) (m : ℤ),
      (generateMatches seed sens mkts draws).filter
          (fun r => decide (r.score = s) && decide (r.similarity = m))
        = (genRows seed sens draws).filter
          (fun r => decide (r.score = s) && decide (r.similarity = m)) := by
  constructor
  · have hp := List.sorted_mergeSort keyLe_trans keyLe_total (genRows seed sens draws)
    have hp2 : (generateMatches seed sens mkts draws).Pairwise
        (fun a b => b.score < a.score ∨ (a.score = b.score ∧ b.similarity ≤ a.similarity)) := by
      refine hp.imp ?_
      intro a b hab
      have h : b.score < a.score ∨ (b.score = a.score ∧ b.similarity ≤ a.similarity) := by
        simpa [keyLe, decide_eq_true_eq] using hab
      rcases h with h | ⟨h1, h2⟩
      · exact Or.inl h
      · exact Or.inr ⟨h1.symm, h2⟩
    exact hp2.chain'
  · intro s m
    set p : MatchRecord → Bool := fun r => decide (r.score = s) && decide (r.similarity = m)
      with hp
    set l := genRows seed sens draws with hl
    have hpair : (l.filter p).Pairwise (fun a b => keyLe a b = true) := by
      apply List.pairwise_of_forall_mem_list
      intro a ha b hb
      have ha2 := List.of_mem_filter ha
      have hb2 := List.of_mem_filter hb
      rw [hp] at ha2 hb2
      simp only [Bool.and_eq_true, decide_eq_true_eq] at ha2 hb2
      simp only [keyLe, decide_eq_true_eq]
      exact Or.inr ⟨hb2.1.trans ha2.1.symm, by rw [hb2.2, ha2.2]⟩
    have hsub : List.Sublist (l.filter p) (List.mergeSort l keyLe) :=
      List.sublist_mergeSort keyLe_trans keyLe_total hpair (List.filter_sublist l)
    have hsub2 := hsub.filter p
    rw [List.filter_filter] at hsub2
    have hpp : List.filter (fun a => p a && p a) l = List.filter p l := by
      congr 1
      funext a
      exact Bool.and_self (p a)
    rw [hpp] at hsub2
    have hlen : ((List.mergeSort l keyLe).filter p).length = (l.filter p).length :=
      ((List.mergeSort_perm l keyLe).filter p).length_eq
    exact (hsub2.eq_of_length hlen.symm).symm

/-- Python `str` of the one-decimal float stored in a record's score slot,
as interpolated into the match line f-string (scores are nonnegative
one-decimal values here). -/
def fmt1 (q : ℚ) : String :=
  toString ⌊q⌋ ++ "." ++ toString (⌊10 * q⌋ - 10 * ⌊q⌋)

/-- The submission metadata dictionary `meta` (src/app.py lines 606-614);
the `created_at` entry is present in the dictionary but never drawn by the
report composer, exactly as in the source. -/
structure Meta where
  culture : String
  origin : String
  meaning : String
  sensitivity : String
  consent : String
  marketplaces : String
  created_at : String
deriving DecidableEq, Repr

/-- One command issued to the PDF canvas by `make_pdf_report`: a font
selection, a positioned text draw, a positioned image draw (payload
abstracted to its geometry), or a page break (`c.showPage()`). -/
inductive PdfCmd
  | setFont (name : String) (size : ℚ)
  | text (x y : ℚ) (s : String)
  | image (x y w h : ℚ)
  | newPage
deriving DecidableEq, Repr

/-- The per-match loop of `make_pdf_report` (src/app.py lines 441-453):
one block per match with the pagination check `if y < 120: c.showPage()`
at the top of each iteration and `y -= 70` at the bottom. -/
def matchLines (H : ℚ) : ℕ → ℚ → List MatchRecord → List PdfCmd
  | _, _, [] => []
  | idx, y, m :: rest =>
    let y1 := if y < 120 then H - 60 else y
    (if y < 120 then [PdfCmd.newPage] else []) ++
    [PdfCmd.setFont "Helvetica-Bold" 9,
     PdfCmd.text 40 y1 (toString idx ++ ". " ++ m.title ++ " — Risk " ++ fmt1 m.score ++ "/100"),
     PdfCmd.setFont "Helvetica" 8,
     PdfCmd.text 40 (y1 - 12) ("Brand: " ++ m.brand ++ " | Source: " ++ m.source),
     PdfCmd.text 40 (y1 - 24) ("URL: " ++ m.url),
     PdfCmd.text 40 (y1 - 36)
       ("Visual similarity: " ++ toString m.similarity ++ "% | Attribution signal: "
         ++ m.attribution)] ++
    (if m.flags.isEmpty then [] else
      [PdfCmd.text 40 (y1 - 48) ("Language signals: " ++ String.intercalate ", " m.flags)]) ++
    matchLines H (idx + 1) (y1 - 70) rest

/-- Model of `make_pdf_report` (src/app.py lines 402-459) as the ordered
sequence of canvas commands it issues.  `H` is the page height `A4[1]` and
`ts` the `now_str()` timestamp taken at generation time.  Only the first
three matches are listed (`matches[:3]`, numbered from 1). -/
def make_pdf_report (H : ℚ) (brand : String) (meta : Meta) (ms : List MatchRecord)
    (ts : String) : List PdfCmd :=
  [PdfCmd.setFont "Helvetica-Bold" 16,
   PdfCmd.text 40 (H - 42) (brand ++ " — Pattern Risk Assessment"),
   PdfCmd.setFont "Helvetica" 9,
   PdfCmd.text 40 (H - 58) ("Generated: " ++ ts),
   PdfCmd.setFont "Helvetica-Bold" 11,
   PdfCmd.text 40 (H - 90) "Submitted textile pattern",
   PdfCmd.image 40 (H - 330) 220 220,
   PdfCmd.setFont "Helvetica" 9,
   PdfCmd.text 280 (H - 105) ("Culture / Community: " ++ meta.culture),
   PdfCmd.text 280 (H - 105 - 16) ("Geographic origin: " ++ meta.origin),
   PdfCmd.text 280 (H - 105 - 32) ("Meaning / function: " ++ meta.meaning),
   PdfCmd.text 280 (H - 105 - 48) ("Sensitivity: " ++ meta.sensitivity),
   PdfCmd.text 280 (H - 105 - 64) ("Consent: " ++ meta.consent),
   PdfCmd.text 280 (H - 105 - 80) ("Marketplaces: " ++ meta.marketplaces),
   PdfCmd.setFont "Helvetica-Bold" 11,
   PdfCmd.text 40 (H - 370) "Top matches (evidence)",
   PdfCmd.setFont "Helvetica" 9] ++
  matchLines H 1 (H - 390) (ms.take 3) ++
  [PdfCmd.setFont "Helvetica-Oblique" 8,
   PdfCmd.text 40 50 "Note: Advisory risk signal for community review. Not a legal determination."]

/-- C9: `make_pdf_report` applied to an empty match list still produces a
complete document: it contains the header with the brand name, the
generation timestamp, the full metadata field list, the matches section
title and the disclaimer footer, while the matches section itself is empty
and no page break is emitted; the composition is total and cannot fail on
zero matches. -/
theorem c9_report_empty_matches (H : ℚ) (brand : String) (meta : Meta) (ts : String) :
    PdfCmd.text 40 (H - 42) (brand ++ " — Pattern Risk Assessment")
        ∈ make_pdf_report H brand meta [] ts ∧
    PdfCmd.text 40 (H - 58) ("Generated: " ++ ts) ∈ make_pdf_report H brand meta [] ts ∧
    PdfCmd.text 280 (H - 105) ("Culture / Community: " ++ meta.culture)
        ∈ make_pdf_report H brand meta [] ts ∧
    PdfCmd.text 280 (H - 105 - 16) ("Geographic origin: " ++ meta.origin)
        ∈ make_pdf_report H brand meta [] ts ∧
    PdfCmd.text 280 (H - 105 - 32) ("Meaning / function: " ++ meta.meaning)
        ∈ make_pdf_report H brand meta [] ts ∧
    PdfCmd.text 280 (H - 105 - 48) ("Sensitivity: " ++ meta.sensitivity)
        ∈ make_pdf_report H brand meta [] ts ∧
    PdfCmd.text 280 (H - 105 - 64) ("Consent: " ++ meta.consent)
        ∈ make_pdf_report H brand meta [] ts ∧
    PdfCmd.text 280 (H - 105 - 80) ("Marketplaces: " ++ meta.marketplaces)
        ∈ make_pdf_report H brand meta [] ts ∧
    PdfCmd.text 40 (H - 370) "Top matches (evidence)" ∈ make_pdf_report H brand meta [] ts ∧
    PdfCmd.text 40 50 "Note: Advisory risk signal for community review. Not a legal determination."
        ∈ make_pdf_report H brand meta [] ts ∧
    matchLines H 1 (H - 390) (List.take 3 []) = [] ∧
    PdfCmd.newPage ∉ make_pdf_report H brand meta [] ts := by
  refine ⟨?_, ?_, ?_, ?_, ?_, ?_, ?_, ?_, ?_, ?_, rfl, ?_⟩ <;>
    simp [make_pdf_report, matchLines]

end WeaveScope
